import Mathlib

/-!
Shallow embedding of the podocytes image-analysis pipeline
(src/podocytes/main.py and src/podocytes/util.py) together with proofs
about its behaviour.  Definitions come first, theorems afterwards.

Conventions used throughout:
* Python floats that only ever hold exact pixel/physical quantities are
  modelled as rationals (ℚ); array coordinates are integers (Int) or
  naturals (Nat).
* numpy arrays are modelled as Lean lists (flattened, raster order) or
  as lists of per-axis quantities, as stated at each definition.
* Fallible code (a Python function that can raise, or that returns the
  None sentinel) is modelled with Option.
* External library calls (os.walk, pims decoding, skimage label /
  watershed / gaussian, regionprops) are not repository code; where a
  claim depends on them they enter either as an explicit input (for
  example the walk output or a measured region list), as a function
  parameter constrained by the documented contract of the library, or as a
  definition marked as modelled from the spec.
-/

/- ---------------------------------------------------------------
   File discovery  (src/podocytes/main.py  find_files, lines 300-321,
   and src/podocytes/util.py  find_files, lines 13-35).

   os.walk is a Python standard-library call, external to the
   repository; its output — one (root, files) pair per visited
   directory — is taken as the input of the embedded functions, which
   translate the nested loops over that output.
   --------------------------------------------------------------- -/

/-- Path separator used by os.path.join on the platforms the tool targets. -/
def sep : String := "/"

/-- Leading character of hidden file names. -/
def dot : String := "."

/-- Python str.endswith: case-sensitive suffix match on the character
sequence of the string. -/
def str_ends_with (s e : String) : Bool := e.data.isSuffixOf s.data

/-- Python str.startswith: case-sensitive prefix match on the character
sequence of the string. -/
def str_starts_with (s e : String) : Bool := e.data.isPrefixOf s.data

/-- os.path.join root f for a plain file name. -/
def os_path_join (root f : String) : String := root ++ sep ++ f

/-- Inner loop of main.find_files over the file names of one directory:
append every name with the requested extension (case-sensitive suffix
match) to the accumulated file list. -/
def find_files_dir (ext root : String) (files : List String)
    (filelist : List String) : List String :=
  files.foldl
    (fun fl f => if str_ends_with f ext then fl ++ [os_path_join root f] else fl)
    filelist

/-- main.find_files (src/podocytes/main.py lines 300-321): iterate the
os.walk output and collect every file name ending with ext.  No
hidden-file test is performed in this version. -/
def find_files (walk_output : List (String × List String))
    (ext : String) : List String :=
  walk_output.foldl (fun filelist rf => find_files_dir ext rf.1 rf.2 filelist) []

/-- Inner loop of util.find_files: same as find_files_dir but names
starting with a dot (hidden files) are additionally skipped. -/
def util_find_files_dir (ext root : String) (files : List String)
    (filelist : List String) : List String :=
  files.foldl
    (fun fl f =>
      if str_ends_with f ext && !(str_starts_with f dot) then fl ++ [os_path_join root f]
      else fl)
    filelist

/-- util.find_files (src/podocytes/util.py lines 13-35): like
main.find_files but ignoring hidden files.  The pipeline entry point in
main.py calls its local find_files, not this one. -/
def util_find_files (walk_output : List (String × List String))
    (ext : String) : List String :=
  walk_output.foldl
    (fun filelist rf => util_find_files_dir ext rf.1 rf.2 filelist) []

/-- The default extension searched by the pipeline. -/
def lif_ext : String := ".lif"

/-- Name of a directory used in concrete inputs. -/
def dir_d : String := "d"

/-- A hidden file name that still ends with the searched extension. -/
def hidden_name : String := ".hidden.lif"

/-- Concrete os.walk output containing a single directory that holds a
single hidden file whose name still ends with the searched extension. -/
def hidden_walk_output : List (String × List String) :=
  [(dir_d, [hidden_name])]

/- ---------------------------------------------------------------
   Size filtering  (src/podocytes/main.py  filter_by_size,
   lines 270-297).

   filter_by_size iterates over the regionprops of a label image and
   keeps the regions whose equivalent diameter lies in the requested
   range.  regionprops is an external (scikit-image) measurement; the
   embedding takes its output — the measured region list — as input, so
   the quantification over region lists below covers the region list of
   every label image.
   --------------------------------------------------------------- -/

/-- One measured connected component, as far as filter_by_size reads it. -/
structure SizeRegion where
  label : Nat
  equivalent_diameter : ℚ
deriving DecidableEq

/-- filter_by_size (src/podocytes/main.py lines 270-297): keep the
regions whose equivalent diameter is >= min_diameter and
<= max_diameter, preserving the input order. -/
def filter_by_size (regions : List SizeRegion)
    (min_diameter max_diameter : ℚ) : List SizeRegion :=
  regions.foldl
    (fun kept region =>
      if min_diameter ≤ region.equivalent_diameter
          ∧ region.equivalent_diameter ≤ max_diameter
      then kept ++ [region] else kept)
    []

/-- Sample region used to instantiate hypotheses of the size-filter
theorem at a concrete input. -/
def sample_region : SizeRegion := { label := 1, equivalent_diameter := 35 }

/- ---------------------------------------------------------------
   Channel denoising  (src/podocytes/main.py  denoise_image,
   lines 244-267).

   The per-frame metadata read by denoise_image — the axis-order
   descriptor and the x/y and z physical pixel sizes — is carried by
   PimsFrame.  The axes loop is translated from the source; note that
   an axis label other than x, y, z appends nothing, so the sigma
   sequence comes out shorter than the image rank.
   --------------------------------------------------------------- -/

/-- Metadata of one decoded image frame, as read by denoise_image. -/
structure PimsFrame where
  ndim : Nat
  axes : List Char
  mpp : ℚ
  mppZ : ℚ

/-- Loop of denoise_image over the axis labels: x and y contribute the
xy pixel size, z contributes the z pixel size, anything else
contributes nothing. -/
def voxel_dimensions_loop (mpp mppZ : ℚ) (axes : List Char)
    (voxel_dimensions : List ℚ) : List ℚ :=
  axes.foldl
    (fun voxel_dimensions i =>
      if i = 'x' ∨ i = 'y' then voxel_dimensions ++ [mpp]
      else if i = 'z' then voxel_dimensions ++ [mppZ]
      else voxel_dimensions)
    voxel_dimensions

/-- Modelled from the spec: the Gaussian blur applied by denoise_image
is the external skimage/scipy gaussian filter, which, when given a
per-axis sigma sequence, requires one entry per image axis and raises
otherwise (sequence argument must have length equal to input rank).
The blurred data itself is external; a successful call is abstracted by
the sigma sequence it used. -/
def gaussian (ndim : Nat) (sigma : List ℚ) : Option (List ℚ) :=
  if sigma.length = ndim then some sigma else none

/-- denoise_image (src/podocytes/main.py lines 244-267): build the
per-axis voxel dimensions from the axis labels, divide the xy pixel
size by them to get an anisotropic sigma, and apply the Gaussian blur.
none models a raised error. -/
def denoise_image (image : PimsFrame) : Option (List ℚ) :=
  let voxel_dimensions := voxel_dimensions_loop image.mpp image.mppZ image.axes []
  let sigma := voxel_dimensions.map (fun v => image.mpp / v)
  gaussian image.ndim sigma

/-- Frame whose axis descriptor contains the unrecognized label t. -/
def bad_axis_frame : PimsFrame :=
  { ndim := 3, axes := ['t', 'y', 'x'], mpp := 1, mppZ := 2 }

/- ---------------------------------------------------------------
   ROI extraction  (src/podocytes/main.py  crop_region_of_interest,
   lines 194-241).

   The coordinate arithmetic of the source is translated line by line
   on per-axis integer lists.  The pasted pixel data does not influence
   the shape of the output array, so the embedding returns that shape (the
   max_roi_size of the source, the shape given to np.zeros / np.ones);
   none models the ValueError raised for an unrecognized pad mode.
   --------------------------------------------------------------- -/

/-- crop_region_of_interest (src/podocytes/main.py lines 194-241),
shape level: bbox holds the per-axis minima followed by the per-axis
maxima (half-open); the returned list is the shape of the output
array. -/
def crop_region_of_interest (image_shape : List Int) (bbox : List Int)
    (margin : Int) (pad_mode : String) : Option (List Int) :=
  let ndims := image_shape.length
  let max_image_size := image_shape
  let bbox_min_plus_margin := (bbox.take ndims).map (fun coord => coord - margin)
  let bbox_max_plus_margin := (bbox.drop ndims).map (fun coord => coord + margin)
  let image_min_coords := bbox_min_plus_margin.map (fun c => max c 0)
  let image_max_coords := List.zipWith min bbox_max_plus_margin max_image_size
  let max_roi_size := (List.range ndims).map
    (fun dim => |bbox_max_plus_margin.getD dim 0 - bbox_min_plus_margin.getD dim 0|)
  let roi_min_coord := (List.range ndims).map
    (fun dim => |image_min_coords.getD dim 0 - bbox_min_plus_margin.getD dim 0|)
  let roi_max_coord := (List.range ndims).map
    (fun dim => max_roi_size.getD dim 0
      - |bbox_max_plus_margin.getD dim 0 - image_max_coords.getD dim 0|)
  if pad_mode = "zeros" then some max_roi_size
  else if pad_mode = "mean" then some max_roi_size
  else none

/- ---------------------------------------------------------------
   Podocyte measurement  (src/podocytes/main.py  podocyte_statistics,
   lines 421-457, and the centroid offset of find_podocytes,
   lines 350-355) and the per-glomerulus loop of main, lines 64-81.
   --------------------------------------------------------------- -/

/-- One measured podocyte region (scikit-image regionprops output), as
far as podocyte_statistics reads it.  The centroid is in local ROI
coordinates, one entry per axis. -/
structure PodRegion where
  label : Nat
  area : Nat
  equivalent_diameter : ℚ
  centroid : List ℚ
deriving DecidableEq

/-- One row of the per-podocyte statistics dataframe. -/
structure PodRow where
  podocyte_label_number : Nat
  podocyte_voxel_number : Nat
  podocyte_volume : ℚ
  podocyte_equiv_diam_pixels : ℚ
  podocyte_centroid_x : ℚ
  podocyte_centroid_y : ℚ
  podocyte_centroid_z : ℚ
deriving DecidableEq

/-- Fixed cropping margin of find_podocytes (10 pixels). -/
def cropping_margin : Int := 10

/-- Centroid offset computed by find_podocytes (src/podocytes/main.py
lines 350-355): bbox minimum minus the cropping margin, per axis. -/
def find_podocytes_centroid_offset (bbox : List Int) (ndim : Nat) : List Int :=
  (List.range ndim).map (fun dim => bbox.getD dim 0 - cropping_margin)

/-- The offset of find_podocytes as the rational vector added to the
(float) local centroids downstream. -/
def centroid_offsetQ (bbox : List Int) (ndim : Nat) : List ℚ :=
  (find_podocytes_centroid_offset bbox ndim).map (fun z => (Int.cast z : ℚ))

/-- Global centroid of one podocyte (src/podocytes/main.py
lines 441-443): local centroid plus the centroid offset, component by
component over the axes of the centroid. -/
def real_podocyte_centroid (pod : PodRegion) (centroid_offset : List ℚ) :
    List ℚ :=
  (List.range pod.centroid.length).map
    (fun dim => pod.centroid.getD dim 0 + centroid_offset.getD dim 0)

/-- The dataframe row built for one podocyte (src/podocytes/main.py
lines 445-451); columns x, y, z read components 2, 1, 0 of the global
centroid. -/
def podocyte_row (pod : PodRegion) (centroid_offset : List ℚ)
    (voxel_volume : ℚ) : PodRow :=
  { podocyte_label_number := pod.label
    podocyte_voxel_number := pod.area
    podocyte_volume := (pod.area : ℚ) * voxel_volume
    podocyte_equiv_diam_pixels := pod.equivalent_diameter
    podocyte_centroid_x := (real_podocyte_centroid pod centroid_offset).getD 2 0
    podocyte_centroid_y := (real_podocyte_centroid pod centroid_offset).getD 1 0
    podocyte_centroid_z := (real_podocyte_centroid pod centroid_offset).getD 0 0 }

/-- podocyte_statistics (src/podocytes/main.py lines 421-457): append
one row per region; return the dataframe when it is non-empty and the
None sentinel otherwise. -/
def podocyte_statistics (podocyte_regions : List PodRegion)
    (centroid_offset : List ℚ) (voxel_volume : ℚ) : Option (List PodRow) :=
  let df := podocyte_regions.foldl
    (fun df pod => df ++ [podocyte_row pod centroid_offset voxel_volume]) []
  if 0 < df.length then some df else none

/-- Per-glomerulus loop of main (src/podocytes/main.py lines 64-81):
for each glomerulus, measure its podocytes; on the None sentinel skip
to the next glomerulus (continue), otherwise post-process the rows
(podocyte_avg_statistics, glom_statistics — abstracted by post, which
also receives the current glomerulus index), append them, and increment
the glomerulus index.  The state is the accumulated rows plus the
index counter. -/
def process_glomeruli {γ β : Type} (regionsOf : γ → List PodRegion)
    (offsetOf : γ → List ℚ) (voxel_volume : ℚ)
    (post : γ → Nat → List PodRow → List β)
    (gloms : List γ) (init : List β × Nat) : List β × Nat :=
  gloms.foldl
    (fun acc glom =>
      match podocyte_statistics (regionsOf glom) (offsetOf glom) voxel_volume with
      | none => acc
      | some df => (acc.1 ++ post glom acc.2 df, acc.2 + 1))
    init

/-- Sample measured podocyte used by concrete witnesses. -/
def sample_pod : PodRegion :=
  { label := 1, area := 8, equivalent_diameter := 2, centroid := [3, 4, 5] }

/- ---------------------------------------------------------------
   Marker-controlled watershed  (src/podocytes/main.py
   blob_dog_image lines 98-118 and marker_controlled_watershed
   lines 542-563).

   Images are flattened to lists in raster order: an image of n voxels
   whose first axis has slices of p voxels each puts slice 0 (the
   pixels whose first-axis index is 0) at flat indices 0..p-1.

   The seeds array is boolean, so the source line
   `seeds[0] = np.max(seeds) + 1` stores a value that numpy casts back
   to True over the whole first slice, and `np.max(seeds)` evaluates to
   True, i.e. 1, both before and after.  skimage.measure.label and
   skimage.morphology.watershed are external; the watershed (together
   with the gradient elevation surface it floods, gradient_of_image)
   and the connected-component labelling enter as function parameters
   constrained in the theorem by their documented contracts.
   --------------------------------------------------------------- -/

/-- blob_dog_image (src/podocytes/main.py lines 98-118) flattened: a
boolean image that is True exactly at the blob coordinates. -/
def blob_dog_image (blobs : List Nat) (n : Nat) : List Bool :=
  (List.range n).map (fun v => decide (v ∈ blobs))

/-- Effect of `seeds[0] = np.max(seeds) + 1` on the boolean seeds
array: every voxel of the first slice (flat index < p) becomes True
(numpy casts the stored 1 or 2 back to True); the rest is unchanged. -/
def set_background_seed (p : Nat) (seeds : List Bool) : List Bool :=
  (List.range seeds.length).map
    (fun v => if v < p then true else seeds.getD v false)

/-- The seeds array of marker_controlled_watershed after the background
slice has been marked. -/
def mcw_seeds (p n : Nat) (marker_coords : List Nat) : List Bool :=
  set_background_seed p (blob_dog_image marker_coords n)

/-- np.max over a boolean numpy array, as an integer: 1 when any entry
is True, else 0. -/
def npmax_bool (seeds : List Bool) : Nat :=
  if seeds.any (fun b => b) then 1 else 0

/-- marker_controlled_watershed (src/podocytes/main.py lines 542-563):
build the seed image from the blob coordinates, mark the background
slice, flood the gradient surface from the labelled seeds (lbl models
skimage label, ws models the watershed flooding of the gradient
elevation surface built by gradient_of_image), then reset the
value `np.max(seeds)` — 1 for a boolean seeds array — to 0. -/
def marker_controlled_watershed (lbl : List Bool → List Nat)
    (ws : List Nat → List Nat) (p n : Nat)
    (marker_coords : List Nat) : List Nat :=
  let seeds := mcw_seeds p n marker_coords
  let wshed := ws (lbl seeds)
  wshed.map (fun x => if x = npmax_bool seeds then 0 else x)

/-- Concrete labelling used to instantiate the watershed theorem on a
2 by 2 image (n = 4 voxels, first slice of p = 2 voxels) with one blob
seed at flat index 3: the background slice is component 1, the blob is
component 2. -/
def sample_lbl : List Bool → List Nat :=
  fun s => if s = [true, true, false, true] then [1, 1, 0, 2] else []

/-- Concrete watershed flooding matching sample_lbl: the left half
drains to the background marker, the right half to the blob marker. -/
def sample_ws : List Nat → List Nat :=
  fun l => if l = [1, 1, 0, 2] then [1, 1, 2, 2] else []

/- ---------------------------------------------------------------
   Detailed and summary tables  (src/podocytes/main.py
   create_summary_stats lines 159-191, main lines 40-94).
   --------------------------------------------------------------- -/

/-- The glomerulus-scope columns kept by create_summary_stats
(the summary_columns list, src/podocytes/main.py lines 175-189). -/
structure SummaryRow where
  image_filename : String
  image_series_name : String
  image_series_num : Nat
  glomeruli_index : Nat
  glomeruli_label_number : Nat
  glomeruli_voxel_number : Nat
  glomeruli_volume : ℚ
  glomeruli_equiv_diam_pixels : ℚ
  glomeruli_centroid_x : ℚ
  glomeruli_centroid_y : ℚ
  glomeruli_centroid_z : ℚ
  number_of_podocytes : Nat
  avg_podocyte_voxel_number : ℚ
  avg_podocyte_volume : ℚ
  podocyte_density : ℚ
deriving DecidableEq

/-- One row of the detailed statistics table: the podocyte-scope
columns plus the glomerulus-scope columns. -/
structure DetailedRow extends SummaryRow where
  podocyte_label_number : Nat
  podocyte_voxel_number : Nat
  podocyte_volume : ℚ
  podocyte_equiv_diam_pixels : ℚ
  podocyte_centroid_x : ℚ
  podocyte_centroid_y : ℚ
  podocyte_centroid_z : ℚ
  avg_podocyte_equiv_diam_pixels : ℚ
deriving DecidableEq

/-- The (file, series, glomerulus index) identification triple of a
summary row. -/
def summary_triple (r : SummaryRow) : String × Nat × Nat :=
  (r.image_filename, r.image_series_num, r.glomeruli_index)

/-- create_summary_stats (src/podocytes/main.py lines 159-191): the
None sentinel for an empty detailed table, otherwise the projection
onto the glomerulus-scope columns with duplicate rows removed
(pandas drop_duplicates; List.dedup keeps one copy of every distinct
row — pandas keeps the first occurrence and dedup the last, which
changes only the row order, not the multiset of rows). -/
def create_summary_stats (dataframe : List DetailedRow) :
    Option (List SummaryRow) :=
  if dataframe.length = 0 then none
  else some (dataframe.map DetailedRow.toSummaryRow).dedup

/-- A concrete detailed row. -/
def example_row_a : DetailedRow :=
  { image_filename := "f.lif"
    image_series_name := "s"
    image_series_num := 0
    glomeruli_index := 0
    glomeruli_label_number := 1
    glomeruli_voxel_number := 100
    glomeruli_volume := 100
    glomeruli_equiv_diam_pixels := 5
    glomeruli_centroid_x := 0
    glomeruli_centroid_y := 0
    glomeruli_centroid_z := 0
    number_of_podocytes := 1
    avg_podocyte_voxel_number := 10
    avg_podocyte_volume := 10
    podocyte_density := 1
    podocyte_label_number := 1
    podocyte_voxel_number := 10
    podocyte_volume := 10
    podocyte_equiv_diam_pixels := 2
    podocyte_centroid_x := 1
    podocyte_centroid_y := 2
    podocyte_centroid_z := 3
    avg_podocyte_equiv_diam_pixels := 2 }

/-- A second detailed row carrying the same (file, series, glomerulus
index) triple as example_row_a but a different glomerulus voxel count,
as the accumulated table can contain after the per-series identifier
overwrite of the main loop. -/
def example_row_b : DetailedRow :=
  { example_row_a with glomeruli_voxel_number := 200 }

/- ---------------------------------------------------------------
   Batch accumulation of the main loop  (src/podocytes/main.py  main,
   lines 40-94).

   Everything upstream of the dataframe bookkeeping (decoding,
   segmentation, per-glomerulus statistics) is abstracted: each series
   carries the payloads of the rows its glomeruli produce.  The three
   identifier columns start absent on freshly appended rows and the
   per-series column assignment
       detailed_stats[image_series_num] = ...
       detailed_stats[image_series_name] = ...
       detailed_stats[image_filename] = ...
   writes the whole column, i.e. every row accumulated so far.
   --------------------------------------------------------------- -/

/-- One image series of an input file: its metadata identifiers and
the payloads of the detailed rows its glomeruli contribute. -/
structure SeriesInput where
  image_id : Nat
  image_name : String
  series_rows : List Nat
deriving DecidableEq

/-- One input file of a batch. -/
structure FileInput where
  filename : String
  series : List SeriesInput
deriving DecidableEq

/-- One row of the accumulated detailed table, reduced to its payload
and the three identifier columns (absent until first assigned). -/
structure BatchRow where
  payload : Nat
  image_series_num : Option Nat
  image_series_name : Option String
  image_filename : Option String
deriving DecidableEq

/-- Rows appended for one series (detailed_stats.append of the
per-glomerulus dataframes): the identifier columns do not exist on the
new rows yet. -/
def append_series_rows (stats : List BatchRow) (s : SeriesInput) :
    List BatchRow :=
  stats ++ s.series_rows.map
    (fun p => { payload := p, image_series_num := none,
                image_series_name := none, image_filename := none })

/-- The per-series column assignment of main (src/podocytes/main.py
lines 83-86): sets the three identifier columns of every row of the
accumulated table to the identifiers of the current series. -/
def set_image_details (stats : List BatchRow) (s : SeriesInput)
    (filename : String) : List BatchRow :=
  stats.map
    (fun r =>
      { r with
        image_series_num := some s.image_id,
        image_series_name := some s.image_name,
        image_filename := some filename })

/-- Processing of one series inside the loops of main: append its rows,
then assign the identifier columns over the whole table. -/
def process_series (filename : String) (stats : List BatchRow)
    (s : SeriesInput) : List BatchRow :=
  set_image_details (append_series_rows stats s) s filename

/-- Processing of one file: its series in order. -/
def process_file (stats : List BatchRow) (f : FileInput) : List BatchRow :=
  f.series.foldl (process_series f.filename) stats

/-- The detailed table accumulated by main over a whole batch. -/
def main_detailed_stats (batch : List FileInput) : List BatchRow :=
  batch.foldl process_file []

/-- First input file name of the concrete batch. -/
def file_a : String := "a.lif"

/-- Second input file name of the concrete batch. -/
def file_b : String := "b.lif"

/-- Series name inside the first file. -/
def series_name_0 : String := "s0"

/-- Series name inside the second file. -/
def series_name_1 : String := "s1"

/-- A two-file batch: file a.lif with one series (id 0, name s0)
contributing one row, then file b.lif with one series (id 1, name s1)
contributing one row. -/
def two_file_batch : List FileInput :=
  [ { filename := file_a,
      series := [{ image_id := 0, image_name := series_name_0, series_rows := [1] }] },
    { filename := file_b,
      series := [{ image_id := 1, image_name := series_name_1, series_rows := [2] }] } ]

/-- The pad modes recognized by crop_region_of_interest. -/
def pad_mode_mean : String := "mean"

/-- The zero-fill pad mode of crop_region_of_interest. -/
def pad_mode_zeros : String := "zeros"

/- ===============================================================
   Theorems.  Generic helpers first, then one theorem per claim
   (with its witness or counterexample where applicable).
   =============================================================== -/

theorem foldl_snoc_eq_map {α β : Type} (f : α → β) (l : List α) :
    ∀ (init : List β),
      l.foldl (fun acc a => acc ++ [f a]) init = init ++ l.map f := by
  induction l with
  | nil => intro init; simp
  | cons x xs ih =>
    intro init
    simp only [List.foldl_cons, List.map_cons, ih]
    simp [List.append_assoc]

theorem getD_range_map {β : Type} (f : Nat → β) (n i : Nat) (d : β)
    (h : i < n) :
    ((List.range n).map f).getD i d = f i := by
  rw [List.getD_eq_getElem?_getD, List.getElem?_map, List.getElem?_range h]
  rfl

theorem getD_map_of_lt {α β : Type} (f : α → β) (l : List α) (v : Nat)
    (d : α) (d' : β) (h : v < l.length) :
    (l.map f).getD v d' = f (l.getD v d) := by
  rw [List.getD_eq_getElem?_getD, List.getElem?_map,
    List.getElem?_eq_getElem h]
  rw [List.getD_eq_getElem?_getD, List.getElem?_eq_getElem h]
  rfl

/- ----------------------- file discovery ----------------------- -/

theorem find_files_dir_eq (ext root : String) (files : List String) :
    ∀ (filelist : List String),
      find_files_dir ext root files filelist
        = filelist ++ (files.filter (fun f => str_ends_with f ext)).map
            (os_path_join root) := by
  induction files with
  | nil => intro fl; simp [find_files_dir]
  | cons f fs ih =>
    intro fl
    by_cases hf : str_ends_with f ext
    · simp only [find_files_dir, List.foldl_cons, hf, if_true]
      have := ih (fl ++ [os_path_join root f])
      simp only [find_files_dir] at this
      rw [this]
      simp [List.filter_cons, hf, List.append_assoc]
    · simp only [find_files_dir, List.foldl_cons]
      rw [if_neg hf]
      have := ih fl
      simp only [find_files_dir] at this
      rw [this]
      simp [List.filter_cons, hf]

theorem util_find_files_dir_eq (ext root : String) (files : List String) :
    ∀ (filelist : List String),
      util_find_files_dir ext root files filelist
        = filelist ++ (files.filter
            (fun f => str_ends_with f ext && !(str_starts_with f dot))).map
            (os_path_join root) := by
  induction files with
  | nil => intro fl; simp [util_find_files_dir]
  | cons f fs ih =>
    intro fl
    by_cases hf : (str_ends_with f ext && !(str_starts_with f dot)) = true
    · simp only [util_find_files_dir, List.foldl_cons, hf, if_true]
      have := ih (fl ++ [os_path_join root f])
      simp only [util_find_files_dir] at this
      rw [this]
      simp [List.filter_cons, hf, List.append_assoc]
    · simp only [util_find_files_dir, List.foldl_cons]
      rw [if_neg hf]
      have := ih fl
      simp only [util_find_files_dir] at this
      rw [this]
      simp [List.filter_cons, hf]

theorem find_files_mem_aux (ext fp : String)
    (walk_output : List (String × List String)) :
    ∀ (acc : List String),
      (fp ∈ walk_output.foldl
          (fun filelist rf => find_files_dir ext rf.1 rf.2 filelist) acc) ↔
        fp ∈ acc ∨ ∃ rf ∈ walk_output, ∃ f ∈ rf.2,
          str_ends_with f ext = true ∧ fp = os_path_join rf.1 f := by
  induction walk_output with
  | nil => intro acc; simp
  | cons rf walk ih =>
    intro acc
    simp only [List.foldl_cons]
    rw [ih]
    rw [find_files_dir_eq]
    simp only [List.mem_append, List.mem_map, List.mem_filter, List.mem_cons]
    constructor
    · rintro ((h | ⟨f, ⟨hmem, hext⟩, hjoin⟩) | ⟨d, hd, f, hf, hext, hjoin⟩)
      · exact Or.inl h
      · exact Or.inr ⟨rf, Or.inl rfl, f, hmem, hext, hjoin.symm⟩
      · exact Or.inr ⟨d, Or.inr hd, f, hf, hext, hjoin⟩
    · rintro (h | ⟨d, (rfl | hd), f, hf, hext, hjoin⟩)
      · exact Or.inl (Or.inl h)
      · exact Or.inl (Or.inr ⟨f, ⟨hf, hext⟩, hjoin.symm⟩)
      · exact Or.inr ⟨d, hd, f, hf, hext, hjoin⟩

theorem util_find_files_mem_aux (ext fp : String)
    (walk_output : List (String × List String)) :
    ∀ (acc : List String),
      (fp ∈ walk_output.foldl
          (fun filelist rf => util_find_files_dir ext rf.1 rf.2 filelist) acc) ↔
        fp ∈ acc ∨ ∃ rf ∈ walk_output, ∃ f ∈ rf.2,
          (str_ends_with f ext && !(str_starts_with f dot)) = true
            ∧ fp = os_path_join rf.1 f := by
  induction walk_output with
  | nil => intro acc; simp
  | cons rf walk ih =>
    intro acc
    simp only [List.foldl_cons]
    rw [ih]
    rw [util_find_files_dir_eq]
    simp only [List.mem_append, List.mem_map, List.mem_filter, List.mem_cons]
    constructor
    · rintro ((h | ⟨f, ⟨hmem, hext⟩, hjoin⟩) | ⟨d, hd, f, hf, hext, hjoin⟩)
      · exact Or.inl h
      · exact Or.inr ⟨rf, Or.inl rfl, f, hmem, hext, hjoin.symm⟩
      · exact Or.inr ⟨d, Or.inr hd, f, hf, hext, hjoin⟩
    · rintro (h | ⟨d, (rfl | hd), f, hf, hext, hjoin⟩)
      · exact Or.inl (Or.inl h)
      · exact Or.inl (Or.inr ⟨f, ⟨hf, hext⟩, hjoin.symm⟩)
      · exact Or.inr ⟨d, hd, f, hf, hext, hjoin⟩

/-- C9 (amended): the file discovery the pipeline actually uses —
main.find_files — returns exactly the files whose names end with the
extension by case-sensitive suffix match, with NO hidden-file
exclusion; the exclusion of names starting with a dot exists only in
util.find_files, which the pipeline entry point does not call. -/
theorem find_files_membership (walk_output : List (String × List String))
    (ext fp : String) :
    (fp ∈ find_files walk_output ext ↔
      ∃ rf ∈ walk_output, ∃ f ∈ rf.2,
        str_ends_with f ext = true ∧ fp = os_path_join rf.1 f) ∧
    (fp ∈ util_find_files walk_output ext ↔
      ∃ rf ∈ walk_output, ∃ f ∈ rf.2,
        str_ends_with f ext = true ∧ str_starts_with f dot = false
          ∧ fp = os_path_join rf.1 f) := by
  constructor
  · have := find_files_mem_aux ext fp walk_output []
    simpa [find_files] using this
  · have := util_find_files_mem_aux ext fp walk_output []
    simp only [util_find_files]
    rw [this]
    simp only [List.not_mem_nil, false_or, Bool.and_eq_true, Bool.not_eq_true']
    constructor
    · rintro ⟨d, hd, f, hf, ⟨h1, h2⟩, h3⟩
      exact ⟨d, hd, f, hf, h1, h2, h3⟩
    · rintro ⟨d, hd, f, hf, h1, h2, h3⟩
      exact ⟨d, hd, f, hf, ⟨h1, h2⟩, h3⟩

/-- C9 (counterexample to the claim as stated): on a directory holding
the hidden file .hidden.lif, the discovery used by the pipeline
(main.find_files) returns that hidden file, although its name starts
with a dot and the claim promises hidden files are excluded. -/
theorem find_files_keeps_hidden_file :
    find_files hidden_walk_output lif_ext = [os_path_join dir_d hidden_name]
      ∧ str_starts_with hidden_name dot = true
      ∧ str_ends_with hidden_name lif_ext = true := by
  refine ⟨?_, ?_, ?_⟩ <;> rfl

/- ----------------------- size filtering ----------------------- -/

theorem filter_by_size_mem_aux (a b : ℚ) (r : SizeRegion)
    (regions : List SizeRegion) :
    ∀ (acc : List SizeRegion),
      (r ∈ regions.foldl
        (fun kept region =>
          if a ≤ region.equivalent_diameter ∧ region.equivalent_diameter ≤ b
          then kept ++ [region] else kept) acc) ↔
      r ∈ acc ∨ (r ∈ regions ∧ a ≤ r.equivalent_diameter
                  ∧ r.equivalent_diameter ≤ b) := by
  induction regions with
  | nil => intro acc; simp
  | cons x xs ih =>
    intro acc
    simp only [List.foldl_cons]
    by_cases hx : a ≤ x.equivalent_diameter ∧ x.equivalent_diameter ≤ b
    · rw [if_pos hx, ih]
      simp only [List.mem_append, List.mem_singleton, List.mem_cons,
        List.not_mem_nil, or_false]
      constructor
      · rintro ((h | rfl) | ⟨hmem, h1, h2⟩)
        · exact Or.inl h
        · exact Or.inr ⟨Or.inl rfl, hx.1, hx.2⟩
        · exact Or.inr ⟨Or.inr hmem, h1, h2⟩
      · rintro (h | ⟨(rfl | hmem), h1, h2⟩)
        · exact Or.inl (Or.inl h)
        · exact Or.inl (Or.inr rfl)
        · exact Or.inr ⟨hmem, h1, h2⟩
    · rw [if_neg hx, ih]
      simp only [List.mem_cons]
      constructor
      · rintro (h | ⟨hmem, h1, h2⟩)
        · exact Or.inl h
        · exact Or.inr ⟨Or.inr hmem, h1, h2⟩
      · rintro (h | ⟨(rfl | hmem), h1, h2⟩)
        · exact Or.inl h
        · exact absurd ⟨h1, h2⟩ hx
        · exact Or.inr ⟨hmem, h1, h2⟩

theorem filter_by_size_mem (regions : List SizeRegion) (a b : ℚ)
    (r : SizeRegion) :
    r ∈ filter_by_size regions a b ↔
      r ∈ regions ∧ a ≤ r.equivalent_diameter ∧ r.equivalent_diameter ≤ b := by
  have := filter_by_size_mem_aux a b r regions []
  simpa [filter_by_size] using this

/-- C6 (confirmed): filter_by_size keeps exactly the regions whose
equivalent diameter lies in the inclusive range [min, max], and it is
monotone in the range: every region kept by the range [a, b] is also
kept by any wider range [a', b'] with a' ≤ a and b ≤ b'.  The
quantification is over the regionprops output of the label image,
which is a deterministic function of the label image, so the statement
covers every label image. -/
theorem filter_by_size_inclusive_monotone (regions : List SizeRegion)
    (a b a' b' : ℚ) (ha : a' ≤ a) (hb : b ≤ b') :
    (∀ r ∈ filter_by_size regions a b, r ∈ filter_by_size regions a' b') ∧
    (∀ r, r ∈ filter_by_size regions a b ↔
      r ∈ regions ∧ a ≤ r.equivalent_diameter ∧ r.equivalent_diameter ≤ b) := by
  constructor
  · intro r hr
    rw [filter_by_size_mem] at hr
    rw [filter_by_size_mem]
    exact ⟨hr.1, le_trans ha hr.2.1, le_trans hr.2.2 hb⟩
  · intro r
    exact filter_by_size_mem regions a b r

/-- Witness for C6: the glomerular defaults (range [30, 300], widened
to [20, 400]) on a one-region list. -/
theorem filter_by_size_inclusive_monotone_witness :
    (∀ r ∈ filter_by_size [sample_region] 30 300,
      r ∈ filter_by_size [sample_region] 20 400) ∧
    (∀ r, r ∈ filter_by_size [sample_region] 30 300 ↔
      r ∈ [sample_region] ∧ 30 ≤ r.equivalent_diameter
        ∧ r.equivalent_diameter ≤ 300) :=
  filter_by_size_inclusive_monotone [sample_region] 30 300 20 400
    (by norm_num) (by norm_num)

/- ----------------------- channel denoising ----------------------- -/

theorem voxel_dimensions_loop_cons_xy (mpp mppZ : ℚ) (i : Char)
    (l : List Char) (acc : List ℚ) (hxy : i = 'x' ∨ i = 'y') :
    voxel_dimensions_loop mpp mppZ (i :: l) acc
      = voxel_dimensions_loop mpp mppZ l (acc ++ [mpp]) := by
  simp only [voxel_dimensions_loop, List.foldl_cons, if_pos hxy]

theorem voxel_dimensions_loop_cons_z (mpp mppZ : ℚ) (i : Char)
    (l : List Char) (acc : List ℚ) (hxy : ¬(i = 'x' ∨ i = 'y'))
    (hz : i = 'z') :
    voxel_dimensions_loop mpp mppZ (i :: l) acc
      = voxel_dimensions_loop mpp mppZ l (acc ++ [mppZ]) := by
  simp only [voxel_dimensions_loop, List.foldl_cons, if_neg hxy, if_pos hz]

theorem voxel_dimensions_loop_cons_other (mpp mppZ : ℚ) (i : Char)
    (l : List Char) (acc : List ℚ) (hxy : ¬(i = 'x' ∨ i = 'y'))
    (hz : i ≠ 'z') :
    voxel_dimensions_loop mpp mppZ (i :: l) acc
      = voxel_dimensions_loop mpp mppZ l acc := by
  simp only [voxel_dimensions_loop, List.foldl_cons, if_neg hxy, if_neg hz]

theorem voxel_dimensions_loop_le (mpp mppZ : ℚ) :
    ∀ (axes : List Char) (acc : List ℚ),
      (voxel_dimensions_loop mpp mppZ axes acc).length
        ≤ acc.length + axes.length := by
  intro axes
  induction axes with
  | nil => intro acc; simp [voxel_dimensions_loop]
  | cons i l ih =>
    intro acc
    by_cases hxy : i = 'x' ∨ i = 'y'
    · rw [voxel_dimensions_loop_cons_xy mpp mppZ i l acc hxy]
      have := ih (acc ++ [mpp])
      simp only [List.length_append, List.length_cons, List.length_nil]
        at this ⊢
      omega
    · by_cases hz : i = 'z'
      · rw [voxel_dimensions_loop_cons_z mpp mppZ i l acc hxy hz]
        have := ih (acc ++ [mppZ])
        simp only [List.length_append, List.length_cons, List.length_nil]
          at this ⊢
        omega
      · rw [voxel_dimensions_loop_cons_other mpp mppZ i l acc hxy hz]
        have := ih acc
        simp only [List.length_cons] at this ⊢
        omega

theorem voxel_dimensions_loop_lt (mpp mppZ : ℚ) (c : Char)
    (hx : c ≠ 'x') (hy : c ≠ 'y') (hz : c ≠ 'z') :
    ∀ (axes : List Char), c ∈ axes →
      ∀ (acc : List ℚ),
        (voxel_dimensions_loop mpp mppZ axes acc).length
          < acc.length + axes.length := by
  intro axes
  induction axes with
  | nil => intro hc; cases hc
  | cons i l ih =>
    intro hc acc
    rcases List.mem_cons.mp hc with rfl | hmem
    · rw [voxel_dimensions_loop_cons_other mpp mppZ c l acc (by tauto) hz]
      have := voxel_dimensions_loop_le mpp mppZ l acc
      simp only [List.length_cons]
      omega
    · by_cases hxy : i = 'x' ∨ i = 'y'
      · rw [voxel_dimensions_loop_cons_xy mpp mppZ i l acc hxy]
        have := ih hmem (acc ++ [mpp])
        simp only [List.length_append, List.length_cons, List.length_nil]
          at this ⊢
        omega
      · by_cases hiz : i = 'z'
        · rw [voxel_dimensions_loop_cons_z mpp mppZ i l acc hxy hiz]
          have := ih hmem (acc ++ [mppZ])
          simp only [List.length_append, List.length_cons, List.length_nil]
            at this ⊢
          omega
        · rw [voxel_dimensions_loop_cons_other mpp mppZ i l acc hxy hiz]
          have := ih hmem acc
          simp only [List.length_cons] at this ⊢
          omega

/-- C7 (confirmed): when the axis descriptor contains a label other
than x, y, z, denoise_image fails (none, modelling the raised error)
instead of returning a denoised result: the unrecognized label
contributes nothing to the voxel-dimension list, so the sigma sequence
is shorter than the image rank and the Gaussian filter rejects it.
The length check itself belongs to the external Gaussian filter and is
modelled from the spec and the documented library behaviour. -/
theorem denoise_image_unknown_axis_fails (image : PimsFrame) (c : Char)
    (hmem : c ∈ image.axes) (hx : c ≠ 'x') (hy : c ≠ 'y') (hz : c ≠ 'z')
    (hrank : image.axes.length = image.ndim) :
    denoise_image image = none := by
  have hlt := voxel_dimensions_loop_lt image.mpp image.mppZ c hx hy hz
    image.axes hmem []
  simp only [List.length_nil, Nat.zero_add] at hlt
  have hne : ((voxel_dimensions_loop image.mpp image.mppZ image.axes []).map
      (fun v => image.mpp / v)).length ≠ image.ndim := by
    rw [List.length_map]
    omega
  simp only [denoise_image, gaussian, if_neg hne]

/-- Witness for C7: a frame with axis labels t, y, x is rejected. -/
theorem denoise_image_unknown_axis_fails_witness :
    ('t' ∈ bad_axis_frame.axes) ∧ denoise_image bad_axis_frame = none :=
  ⟨by decide,
    denoise_image_unknown_axis_fails bad_axis_frame 't' (by decide)
      (by decide) (by decide) (by decide) (by decide)⟩

/- ----------------------- podocyte measurement ----------------------- -/

theorem real_podocyte_centroid_getD (pod : PodRegion) (o : List ℚ)
    (i : Nat) (h : i < pod.centroid.length) :
    (real_podocyte_centroid pod o).getD i 0
      = pod.centroid.getD i 0 + o.getD i 0 := by
  unfold real_podocyte_centroid
  exact getD_range_map _ _ _ _ h

theorem centroid_offsetQ_getD (bbox : List Int) (ndim i : Nat)
    (h : i < ndim) :
    (centroid_offsetQ bbox ndim).getD i 0 = ((bbox.getD i 0 : ℚ) - 10) := by
  unfold centroid_offsetQ find_podocytes_centroid_offset
  rw [List.map_map]
  simp only [Function.comp_def]
  rw [getD_range_map
    (fun dim => ((bbox.getD dim 0 - cropping_margin : Int) : ℚ)) ndim i 0 h]
  simp only [cropping_margin]
  push_cast
  ring

theorem podocyte_statistics_eq (regions : List PodRegion) (o : List ℚ)
    (vol : ℚ) (hne : regions ≠ []) :
    podocyte_statistics regions o vol
      = some (regions.map (fun pod => podocyte_row pod o vol)) := by
  unfold podocyte_statistics
  rw [foldl_snoc_eq_map]
  simp only [List.nil_append]
  rw [if_pos]
  simp only [List.length_map]
  rw [List.length_pos]
  exact hne

/-- C3 (confirmed): podocyte_statistics reports, for every podocyte of
a ROI, the global centroid equal to the local centroid plus the
centroid offset of find_podocytes — bbox minimum minus the 10-pixel
cropping margin per axis — and the very same offset vector is applied
to every podocyte of that ROI (every row is built with the single
offset centroid_offsetQ bbox 3).  The x, y, z columns hold components
2, 1, 0 of the translated centroid, matching the source. -/
theorem podocyte_statistics_centroid_translation (regions : List PodRegion)
    (bbox : List Int) (vol : ℚ) (hne : regions ≠ [])
    (hc : ∀ pod ∈ regions, pod.centroid.length = 3) :
    podocyte_statistics regions (centroid_offsetQ bbox 3) vol
      = some (regions.map
          (fun pod => podocyte_row pod (centroid_offsetQ bbox 3) vol)) ∧
    ∀ pod ∈ regions,
      (podocyte_row pod (centroid_offsetQ bbox 3) vol).podocyte_centroid_x
          = pod.centroid.getD 2 0 + ((bbox.getD 2 0 : ℚ) - 10) ∧
      (podocyte_row pod (centroid_offsetQ bbox 3) vol).podocyte_centroid_y
          = pod.centroid.getD 1 0 + ((bbox.getD 1 0 : ℚ) - 10) ∧
      (podocyte_row pod (centroid_offsetQ bbox 3) vol).podocyte_centroid_z
          = pod.centroid.getD 0 0 + ((bbox.getD 0 0 : ℚ) - 10) := by
  refine ⟨podocyte_statistics_eq regions (centroid_offsetQ bbox 3) vol hne, ?_⟩
  intro pod hpod
  have h3 := hc pod hpod
  refine ⟨?_, ?_, ?_⟩
  · show (real_podocyte_centroid pod (centroid_offsetQ bbox 3)).getD 2 0 = _
    rw [real_podocyte_centroid_getD pod _ 2 (by omega)]
    rw [centroid_offsetQ_getD bbox 3 2 (by omega)]
  · show (real_podocyte_centroid pod (centroid_offsetQ bbox 3)).getD 1 0 = _
    rw [real_podocyte_centroid_getD pod _ 1 (by omega)]
    rw [centroid_offsetQ_getD bbox 3 1 (by omega)]
  · show (real_podocyte_centroid pod (centroid_offsetQ bbox 3)).getD 0 0 = _
    rw [real_podocyte_centroid_getD pod _ 0 (by omega)]
    rw [centroid_offsetQ_getD bbox 3 0 (by omega)]

/-- Witness for C3: one measured podocyte with local centroid
(3, 4, 5) inside the ROI of a glomerulus with bounding-box minima
(20, 30, 40). -/
theorem podocyte_statistics_centroid_translation_witness :
    (podocyte_statistics [sample_pod]
        (centroid_offsetQ [20, 30, 40, 50, 60, 70] 3) 1
      = some ([sample_pod].map
          (fun pod => podocyte_row pod
            (centroid_offsetQ [20, 30, 40, 50, 60, 70] 3) 1))) ∧
    ∀ pod ∈ [sample_pod],
      (podocyte_row pod
          (centroid_offsetQ [20, 30, 40, 50, 60, 70] 3) 1).podocyte_centroid_x
          = pod.centroid.getD 2 0
            + ((([20, 30, 40, 50, 60, 70] : List Int).getD 2 0 : ℚ) - 10) ∧
      (podocyte_row pod
          (centroid_offsetQ [20, 30, 40, 50, 60, 70] 3) 1).podocyte_centroid_y
          = pod.centroid.getD 1 0
            + ((([20, 30, 40, 50, 60, 70] : List Int).getD 1 0 : ℚ) - 10) ∧
      (podocyte_row pod
          (centroid_offsetQ [20, 30, 40, 50, 60, 70] 3) 1).podocyte_centroid_z
          = pod.centroid.getD 0 0
            + ((([20, 30, 40, 50, 60, 70] : List Int).getD 0 0 : ℚ) - 10) :=
  podocyte_statistics_centroid_translation [sample_pod]
    [20, 30, 40, 50, 60, 70] 1 (by decide) (by decide)

/- ----------------------- empty-result skipping ----------------------- -/

theorem podocyte_statistics_nil (o : List ℚ) (vol : ℚ) :
    podocyte_statistics [] o vol = none := rfl

/-- C8 (confirmed): when a glomerulus yields zero podocyte regions,
podocyte_statistics returns the None sentinel (an explicit empty-result
signal, not an error), and the per-glomerulus loop of main reacts to
that sentinel by skipping the glomerulus — the accumulated state is
unchanged, the glomerulus index does not advance — and continuing with
the remaining glomeruli; the loop is a total function, so the run does
not fail. -/
theorem podocyte_statistics_empty_skip {γ β : Type}
    (regionsOf : γ → List PodRegion) (offsetOf : γ → List ℚ)
    (voxel_volume : ℚ) (post : γ → Nat → List PodRow → List β)
    (g : γ) (rest : List γ) (init : List β × Nat)
    (h : regionsOf g = []) :
    podocyte_statistics (regionsOf g) (offsetOf g) voxel_volume = none ∧
    process_glomeruli regionsOf offsetOf voxel_volume post (g :: rest) init
      = process_glomeruli regionsOf offsetOf voxel_volume post rest init := by
  have hnone : podocyte_statistics (regionsOf g) (offsetOf g) voxel_volume
      = none := by
    rw [h]
    exact podocyte_statistics_nil (offsetOf g) voxel_volume
  refine ⟨hnone, ?_⟩
  unfold process_glomeruli
  rw [List.foldl_cons]
  simp only [hnone]

/-- Witness for C8: a single glomerulus with no podocyte regions on an
otherwise trivial instantiation of the loop. -/
theorem podocyte_statistics_empty_skip_witness :
    podocyte_statistics ((fun _ : Unit => ([] : List PodRegion)) ())
        ((fun _ : Unit => ([] : List ℚ)) ()) 1 = none ∧
    process_glomeruli (fun _ : Unit => ([] : List PodRegion))
        (fun _ : Unit => ([] : List ℚ)) 1
        (fun _ _ _ => ([] : List Nat)) [()] (([], 0))
      = process_glomeruli (fun _ : Unit => ([] : List PodRegion))
        (fun _ : Unit => ([] : List ℚ)) 1
        (fun _ _ _ => ([] : List Nat)) [] (([], 0)) :=
  podocyte_statistics_empty_skip (fun _ : Unit => ([] : List PodRegion))
    (fun _ : Unit => ([] : List ℚ)) 1 (fun _ _ _ => ([] : List Nat))
    () [] (([], 0)) rfl

/- ----------------------- ROI extraction ----------------------- -/

theorem bbox_take_getD (bbox : List Int) (n : Nat) (margin : Int)
    (i : Nat) (hi : i < n) (hb : n ≤ bbox.length) :
    ((bbox.take n).map (fun coord => coord - margin)).getD i 0
      = bbox.getD i 0 - margin := by
  have hib : i < bbox.length := lt_of_lt_of_le hi hb
  rw [List.getD_eq_getElem?_getD, List.getElem?_map, List.getElem?_take,
    if_pos hi, List.getElem?_eq_getElem hib]
  rw [List.getD_eq_getElem?_getD, List.getElem?_eq_getElem hib]
  rfl

theorem bbox_drop_getD (bbox : List Int) (n : Nat) (margin : Int)
    (i : Nat) (hib : n + i < bbox.length) :
    ((bbox.drop n).map (fun coord => coord + margin)).getD i 0
      = bbox.getD (n + i) 0 + margin := by
  rw [List.getD_eq_getElem?_getD, List.getElem?_map, List.getElem?_drop,
    List.getElem?_eq_getElem hib]
  rw [List.getD_eq_getElem?_getD, List.getElem?_eq_getElem hib]
  rfl

/-- C4 (confirmed): for both recognized pad modes and any margin and
bounding box (with per-axis minimum at most maximum), the output array
of crop_region_of_interest has per-axis shape equal to the bounding-box
extent plus twice the margin — independent of the image shape, hence of
how close the expanded window lies to (or how far it overshoots) the
image boundary. -/
theorem crop_region_of_interest_shape (image_shape bbox : List Int)
    (margin : Int) (pad_mode : String)
    (hb : bbox.length = 2 * image_shape.length) (hm : 0 ≤ margin)
    (hext : ∀ d < image_shape.length,
      bbox.getD d 0 ≤ bbox.getD (image_shape.length + d) 0)
    (hpm : pad_mode = pad_mode_zeros ∨ pad_mode = pad_mode_mean) :
    crop_region_of_interest image_shape bbox margin pad_mode
      = some ((List.range image_shape.length).map
          (fun d => (bbox.getD (image_shape.length + d) 0 - bbox.getD d 0)
            + 2 * margin)) := by
  have key : (List.range image_shape.length).map
      (fun dim =>
        |((bbox.drop image_shape.length).map (fun coord => coord + margin)).getD dim 0
          - ((bbox.take image_shape.length).map (fun coord => coord - margin)).getD dim 0|)
      = (List.range image_shape.length).map
          (fun d => (bbox.getD (image_shape.length + d) 0 - bbox.getD d 0)
            + 2 * margin) := by
    apply List.map_congr_left
    intro d hd
    rw [List.mem_range] at hd
    rw [bbox_take_getD bbox image_shape.length margin d hd (by omega)]
    rw [bbox_drop_getD bbox image_shape.length margin d (by omega)]
    have hed := hext d hd
    rw [abs_of_nonneg (by omega)]
    ring
  rcases hpm with rfl | rfl
  · simp only [crop_region_of_interest, pad_mode_zeros]
    rw [if_pos trivial, key]
  · simp only [crop_region_of_interest, pad_mode_mean, pad_mode_zeros]
    rw [if_pos trivial, key, ite_self]

/-- Witness for C4: a 5 by 5 image, bounding box rows 0-3 and
columns 1-4, margin 10 — the expanded window overshoots the image on
every side, yet the output shape is extent plus 20 per axis. -/
theorem crop_region_of_interest_shape_witness :
    crop_region_of_interest [5, 5] [0, 1, 3, 4] 10 pad_mode_mean
      = some ((List.range 2).map
          (fun d => (([0, 1, 3, 4] : List Int).getD (2 + d) 0
            - ([0, 1, 3, 4] : List Int).getD d 0) + 2 * 10)) :=
  crop_region_of_interest_shape [5, 5] [0, 1, 3, 4] 10 pad_mode_mean
    (by decide) (by decide) (by decide) (Or.inr rfl)

/- ----------------------- marker-controlled watershed ----------------------- -/

theorem blob_dog_image_length (blobs : List Nat) (n : Nat) :
    (blob_dog_image blobs n).length = n := by
  simp [blob_dog_image]

theorem mcw_seeds_length (p n : Nat) (blobs : List Nat) :
    (mcw_seeds p n blobs).length = n := by
  simp [mcw_seeds, set_background_seed, blob_dog_image]

theorem mcw_seeds_getD (p n : Nat) (blobs : List Nat) (v : Nat)
    (hv : v < n) :
    (mcw_seeds p n blobs).getD v false
      = if v < p then true else decide (v ∈ blobs) := by
  unfold mcw_seeds set_background_seed
  rw [blob_dog_image_length]
  rw [getD_range_map _ _ _ _ hv]
  by_cases hvp : v < p
  · rw [if_pos hvp, if_pos hvp]
  · rw [if_neg hvp, if_neg hvp]
    unfold blob_dog_image
    rw [getD_range_map _ _ _ _ hv]

theorem npmax_bool_mcw (p n : Nat) (blobs : List Nat) (hp : 0 < p)
    (hpn : p ≤ n) :
    npmax_bool (mcw_seeds p n blobs) = 1 := by
  have hlen : 0 < (mcw_seeds p n blobs).length := by
    rw [mcw_seeds_length]
    omega
  have h0 : (mcw_seeds p n blobs).getD 0 false = true := by
    rw [mcw_seeds_getD p n blobs 0 (by omega), if_pos hp]
  have hmem : true ∈ mcw_seeds p n blobs := by
    rw [List.getD_eq_getElem _ _ hlen] at h0
    rw [← h0]
    exact List.getElem_mem hlen
  have hany : (mcw_seeds p n blobs).any (fun b => b) = true := by
    rw [List.any_eq_true]
    exact ⟨true, hmem, rfl⟩
  unfold npmax_bool
  rw [if_pos hany]

/-- C5 (confirmed): the label image produced by
marker_controlled_watershed has the shape of the input ROI, never
contains the id of the background marker (the component of the first
slice, which skimage label — scanning in raster order from the first
voxel, which the background assignment made foreground — numbers 1,
the value the post-processing resets to 0), and holds only the value 0
and ids of components of blob seeds.  lbl and ws stand for the external
skimage label and watershed calls; the hypotheses are their documented
contracts on this seeds image: the first slice belongs to component 1,
the flooded output has one value per voxel and every value is the label
of some marker voxel. -/
theorem marker_controlled_watershed_output_ids
    (lbl : List Bool → List Nat) (ws : List Nat → List Nat)
    (p n : Nat) (blobs : List Nat) (hp : 0 < p) (hpn : p ≤ n)
    (hbg : ∀ v < p, (lbl (mcw_seeds p n blobs)).getD v 0 = 1)
    (hws_len : (ws (lbl (mcw_seeds p n blobs))).length = n)
    (hws_val : ∀ v < n, ∃ u < n,
      (mcw_seeds p n blobs).getD u false = true ∧
      (ws (lbl (mcw_seeds p n blobs))).getD v 0
        = (lbl (mcw_seeds p n blobs)).getD u 0) :
    (marker_controlled_watershed lbl ws p n blobs).length = n ∧
    (∀ v < n, (marker_controlled_watershed lbl ws p n blobs).getD v 0 ≠ 1) ∧
    (∀ v < n, (marker_controlled_watershed lbl ws p n blobs).getD v 0 = 0 ∨
      ∃ u < n, u ∈ blobs ∧
        (marker_controlled_watershed lbl ws p n blobs).getD v 0
          = (lbl (mcw_seeds p n blobs)).getD u 0) := by
  have hnp := npmax_bool_mcw p n blobs hp hpn
  have hout : ∀ v, v < n →
      (marker_controlled_watershed lbl ws p n blobs).getD v 0
        = (fun x => if x = 1 then 0 else x)
            ((ws (lbl (mcw_seeds p n blobs))).getD v 0) := by
    intro v hv
    simp only [marker_controlled_watershed]
    rw [hnp]
    exact getD_map_of_lt _ _ v 0 0 (by rw [hws_len]; exact hv)
  refine ⟨?_, ?_, ?_⟩
  · simp only [marker_controlled_watershed]
    rw [List.length_map, hws_len]
  · intro v hv
    rw [hout v hv]
    show ¬ (if (ws (lbl (mcw_seeds p n blobs))).getD v 0 = 1 then 0
        else (ws (lbl (mcw_seeds p n blobs))).getD v 0) = 1
    by_cases hx : (ws (lbl (mcw_seeds p n blobs))).getD v 0 = 1
    · rw [if_pos hx]
      omega
    · rw [if_neg hx]
      exact hx
  · intro v hv
    rw [hout v hv]
    show (if (ws (lbl (mcw_seeds p n blobs))).getD v 0 = 1 then 0
        else (ws (lbl (mcw_seeds p n blobs))).getD v 0) = 0 ∨ _
    by_cases hx : (ws (lbl (mcw_seeds p n blobs))).getD v 0 = 1
    · left
      rw [if_pos hx]
    · right
      obtain ⟨u, hun, hseed, hval⟩ := hws_val v hv
      have hup : ¬ u < p := by
        intro hup
        exact hx (hval.trans (hbg u hup))
      have hub : u ∈ blobs := by
        rw [mcw_seeds_getD p n blobs u hun, if_neg hup] at hseed
        exact of_decide_eq_true hseed
      refine ⟨u, hun, hub, ?_⟩
      show (if (ws (lbl (mcw_seeds p n blobs))).getD v 0 = 1 then 0
          else (ws (lbl (mcw_seeds p n blobs))).getD v 0) = _
      rw [if_neg hx]
      exact hval

/-- Witness for C5: a 2 by 2 image (two slices of two voxels) with one
blob seed at flat index 3, labelled by sample_lbl and flooded by
sample_ws. -/
theorem marker_controlled_watershed_output_ids_witness :
    (marker_controlled_watershed sample_lbl sample_ws 2 4 [3]).length = 4 ∧
    (∀ v < 4,
      (marker_controlled_watershed sample_lbl sample_ws 2 4 [3]).getD v 0 ≠ 1) ∧
    (∀ v < 4,
      (marker_controlled_watershed sample_lbl sample_ws 2 4 [3]).getD v 0 = 0 ∨
      ∃ u < 4, u ∈ [3] ∧
        (marker_controlled_watershed sample_lbl sample_ws 2 4 [3]).getD v 0
          = (sample_lbl (mcw_seeds 2 4 [3])).getD u 0) :=
  marker_controlled_watershed_output_ids sample_lbl sample_ws 2 4 [3]
    (by decide) (by decide) (by decide) (by decide) (by decide)

/- ----------------------- summary table ----------------------- -/

theorem dedup_map_length_congr {α β γ : Type}
    [DecidableEq β] [DecidableEq γ] (f : α → β) (g : α → γ) :
    ∀ (l : List α), (∀ a ∈ l, ∀ b ∈ l, (f a = f b ↔ g a = g b)) →
      (l.map f).dedup.length = (l.map g).dedup.length := by
  intro l
  induction l with
  | nil => intro _; rfl
  | cons x xs ih =>
    intro h
    have hsub : ∀ a ∈ xs, ∀ b ∈ xs, (f a = f b ↔ g a = g b) :=
      fun a ha b hb =>
        h a (List.mem_cons_of_mem x ha) b (List.mem_cons_of_mem x hb)
    by_cases hf : f x ∈ xs.map f
    · have hg : g x ∈ xs.map g := by
        obtain ⟨a, ha, hfa⟩ := List.mem_map.mp hf
        exact List.mem_map.mpr ⟨a, ha,
          (h a (List.mem_cons_of_mem x ha) x (List.mem_cons_self x xs)).mp hfa⟩
      rw [List.map_cons, List.map_cons,
        List.dedup_cons_of_mem hf, List.dedup_cons_of_mem hg]
      exact ih hsub
    · have hg : g x ∉ xs.map g := by
        intro hgmem
        apply hf
        obtain ⟨a, ha, hga⟩ := List.mem_map.mp hgmem
        exact List.mem_map.mpr ⟨a, ha,
          (h a (List.mem_cons_of_mem x ha) x (List.mem_cons_self x xs)).mpr hga⟩
      rw [List.map_cons, List.map_cons,
        List.dedup_cons_of_not_mem hf, List.dedup_cons_of_not_mem hg]
      simp only [List.length_cons]
      rw [ih hsub]

/-- C10 (confirmed): create_summary_stats returns the None sentinel
exactly when the detailed table has zero rows — an empty detailed
table never yields an (empty) summary table — so a caller of the
summary step must handle the absent table as a case distinct from a
table with rows. -/
theorem create_summary_stats_none_iff_empty (dataframe : List DetailedRow) :
    create_summary_stats dataframe = none ↔ dataframe = [] := by
  constructor
  · intro h
    by_cases hl : dataframe.length = 0
    · exact List.length_eq_zero.mp hl
    · unfold create_summary_stats at h
      rw [if_neg hl] at h
      cases h
  · rintro rfl
    rfl

/-- C2 (amended, proved): for every non-empty detailed table the
summary table exists and contains no duplicate rows, and — provided
all detailed rows agreeing on the (file, series, glomerulus index)
triple also agree on the remaining glomerulus-scope columns, as the
rows written for a single glomerulus do — its row count equals the
number of distinct triples. -/
theorem create_summary_stats_one_row_per_triple (dataframe : List DetailedRow)
    (hne : dataframe ≠ [])
    (hagree : ∀ r ∈ dataframe, ∀ s ∈ dataframe,
      summary_triple r.toSummaryRow = summary_triple s.toSummaryRow →
        r.toSummaryRow = s.toSummaryRow) :
    ∃ out, create_summary_stats dataframe = some out ∧ out.Nodup ∧
      out.length = (dataframe.map
        (fun r => summary_triple r.toSummaryRow)).dedup.length := by
  have hl : ¬ dataframe.length = 0 := by
    simpa [List.length_eq_zero] using hne
  refine ⟨(dataframe.map DetailedRow.toSummaryRow).dedup, ?_,
    List.nodup_dedup _, ?_⟩
  · unfold create_summary_stats
    rw [if_neg hl]
  · exact dedup_map_length_congr DetailedRow.toSummaryRow
      (fun r => summary_triple r.toSummaryRow) dataframe
      (fun a ha b hb =>
        ⟨fun hfab => congrArg summary_triple hfab,
          fun hgab => hagree a ha b hb hgab⟩)

/-- Witness for C2 (amended) on a one-row detailed table. -/
theorem create_summary_stats_one_row_per_triple_witness :
    ∃ out, create_summary_stats [example_row_a] = some out ∧ out.Nodup ∧
      out.length = ([example_row_a].map
        (fun r => summary_triple r.toSummaryRow)).dedup.length :=
  create_summary_stats_one_row_per_triple [example_row_a]
    (List.cons_ne_nil example_row_a [])
    (fun r hr s hs _ => by
      rw [List.mem_singleton.mp hr, List.mem_singleton.mp hs])

/-- C2 (counterexample to the claim as stated): a two-row detailed
table whose rows share the (file, series, glomerulus index) triple but
differ in another glomerulus-scope column (the glomerulus voxel
count): drop_duplicates compares whole projected rows, so the summary
keeps both rows — row count 2 for a single distinct triple. -/
theorem create_summary_stats_duplicate_triple :
    summary_triple example_row_a.toSummaryRow
        = summary_triple example_row_b.toSummaryRow ∧
    create_summary_stats [example_row_a, example_row_b]
        = some [example_row_a.toSummaryRow, example_row_b.toSummaryRow] ∧
    ([example_row_a, example_row_b].map
        (fun r => summary_triple r.toSummaryRow)).dedup.length = 1 ∧
    example_row_a.toSummaryRow ≠ example_row_b.toSummaryRow := by
  refine ⟨rfl, by decide, by decide, by decide⟩

/- ----------------------- batch accumulation ----------------------- -/

/-- C1 (code_bug): over the two-file batch, the per-series column
assignment of main overwrites the identifier columns of every row
accumulated so far, so after the batch completes the row produced in
series 0 (named s0) of file a.lif carries the identifiers of the last
processed series — image_filename b.lif, series number 1, series name
s1 — not those of the series that produced it. -/
theorem main_loop_overwrites_series_identifiers :
    main_detailed_stats two_file_batch
      = [ { payload := 1, image_series_num := some 1,
            image_series_name := some series_name_1,
            image_filename := some file_b },
          { payload := 2, image_series_num := some 1,
            image_series_name := some series_name_1,
            image_filename := some file_b } ] ∧
    some file_b ≠ some file_a := by
  refine ⟨rfl, by decide⟩
